import Mathlib

/-!
Shallow embedding of the go-radx code-generation scripts
(`dicom/tag/generate_tag_values.py`, `dicom/uid/generate_uid_constants.py`,
`dicom/uid/generate_uid_definitions.py`) and proofs about the claims of the
specification.  Strings are modelled as Lean `String`/`List Char`; the Python
character classes (`\w`, `\s`, `str.lower`, …) are modelled on their ASCII
fragment, which covers the data these scripts consume.
-/

namespace GoRadx

/-! ### Python character classes (ASCII fragment) -/

/-- Python `str.isspace` / regex `\s` on ASCII: space, `\t`, `\n`, `\v`, `\f`, `\r`. -/
def pySpaceChar (c : Char) : Bool :=
  c.toNat == 32 || (9 ≤ c.toNat && c.toNat ≤ 13)

/-- Regex `\w` (word character) on ASCII: alphanumeric or underscore. -/
def pyIsWordChar (c : Char) : Bool :=
  c.isAlphanum || c == '_'

/-- Python `str.lower` on one ASCII character. -/
def pyLowerChar (c : Char) : Char :=
  Char.ofNat (if 65 ≤ c.toNat ∧ c.toNat ≤ 90 then c.toNat + 32 else c.toNat)

/-- Python `str.upper` on one ASCII character. -/
def pyUpperChar (c : Char) : Char :=
  Char.ofNat (if 97 ≤ c.toNat ∧ c.toNat ≤ 122 then c.toNat - 32 else c.toNat)

/-- Python `str.strip` (both ends) on a character list. -/
def pyStripL (cs : List Char) : List Char :=
  ((cs.dropWhile pySpaceChar).reverse.dropWhile pySpaceChar).reverse

/-- Python `str.strip` on a string. -/
def pyStripStr (s : String) : String :=
  String.mk (pyStripL s.data)

/-- Python `str.split(sep)` for a single-character separator: keeps empty pieces,
always returns at least one piece. -/
def splitPredL (p : Char → Bool) : List Char → List (List Char)
  | [] => [[]]
  | c :: cs =>
    if p c then [] :: splitPredL p cs
    else
      match splitPredL p cs with
      | [] => [[c]]
      | w :: ws => (c :: w) :: ws

/-- Python `str.split()` (no argument): split on whitespace runs, dropping
empty pieces.  (`re.sub` collapsing runs to one space composed with `split()`
yields the same word list as splitting on every whitespace character and
dropping empties.) -/
def pyWordsL (cs : List Char) : List (List Char) :=
  (splitPredL pySpaceChar cs).filter (fun w => w ≠ [])

/-- Python `str.capitalize`: first character uppercased, the rest lowercased. -/
def pyCapitalizeL : List Char → List Char
  | [] => []
  | c :: cs => pyUpperChar c :: cs.map pyLowerChar

/-! ### Identifier synthesizer (`to_go_constant_name`, generate_uid_constants.py) -/

/-- The fixed acronym set of `to_go_constant_name`. -/
def goAcronyms : List String :=
  ["vr", "uid", "sop", "ct", "mr", "us", "pet", "nm", "xa", "rf",
   "dx", "mg", "io", "px", "gm", "sm", "au", "hd", "sr", "ko", "pr",
   "rt", "rwv", "seg", "fid", "reg", "jpeg", "rle", "mpeg", "smpte",
   "dicom", "hl7", "ihe", "iso", "qr", "mpps", "gp", "pps", "pdf",
   "cda", "stl", "mtl", "obj", "iv", "uv", "roi", "rtss", "dvh",
   "mwl", "ups", "nud", "fda", "css", "html", "xml", "json", "uri"]

/-- Per-word step of `to_go_constant_name`: acronyms are uppercased, purely
numeric words kept, all other words capitalized. -/
def toGoWordPiece (w : List Char) : List Char :=
  let wl := w.map pyLowerChar
  if goAcronyms.contains (String.mk wl) then w.map pyUpperChar
  else if !wl.isEmpty && wl.all Char.isDigit then w
  else pyCapitalizeL w

/-- `to_go_constant_name(name)` from generate_uid_constants.py: replace runs of
non-word characters by a space, split into words, transform each word,
concatenate, and prepend `UID` when the result starts with a digit. -/
def toGoConstantName (name : String) : String :=
  let cs := name.data.map (fun c => if pyIsWordChar c || pySpaceChar c then c else ' ')
  let words := pyWordsL cs
  let constName := (words.map toGoWordPiece).flatten
  match constName with
  | [] => String.mk constName
  | c :: _ => if c.isDigit then String.mk ("UID".data ++ constName) else String.mk constName

example : toGoConstantName "Implicit VR Little Endian" = "ImplicitVRLittleEndian" := by decide
example : toGoConstantName "12 lead ECG" = "UID12LeadEcg" := by decide
example : toGoConstantName "_" = "_" := by decide
example : toGoConstantName "---" = "" := by decide

/-! ### Hexadecimal parsing (`int(s, 16)` on plain hex tokens) -/

/-- Hexadecimal value of one character, as accepted by `int(_, 16)`. -/
def hexVal (c : Char) : Option Nat :=
  if 48 ≤ c.toNat ∧ c.toNat ≤ 57 then some (c.toNat - 48)
  else if 97 ≤ c.toNat ∧ c.toNat ≤ 102 then some (c.toNat - 87)
  else if 65 ≤ c.toNat ∧ c.toNat ≤ 70 then some (c.toNat - 55)
  else none

/-- Accumulating hex parser; `none` at the first non-hex character
(models the `ValueError` raised by `int(s, 16)`). -/
def parseHexAux : Nat → List Char → Option Nat
  | acc, [] => some acc
  | acc, c :: cs =>
    match hexVal c with
    | none => none
    | some v => parseHexAux (16 * acc + v) cs

/-- `int(s, 16)` on a plain hex token: fails on the empty string and on any
non-hexdigit character. -/
def parseHexL : List Char → Option Nat
  | [] => none
  | c :: cs => parseHexAux 0 (c :: cs)

/-- Python `s.replace(a, b)` for single characters `a`, `b`. -/
def replCharL (a b : Char) (cs : List Char) : List Char :=
  cs.map (fun c => if c == a then b else c)

/-! ### Tag pipeline (`generate_tag_values.py`) -/

/-- One raw record of innolitics `attributes.json`. -/
structure RawAttr where
  id : String
  vrField : String
  name : String
  vm : String
  keyword : String
  retired : String
deriving DecidableEq, Repr

/-- Normalized tag entity (the `Tag` NamedTuple). -/
structure Tag where
  group : Nat
  elem : Nat
  vr : List String
  name : String
  vm : String
  keyword : String
  retired : Bool
deriving DecidableEq, Repr

/-- Python `s.split(" or ")`, fuelled (fuel = length of the subject is always
enough since every step consumes at least one character). -/
def splitSegF (sep : List Char) : Nat → List Char → List (List Char)
  | 0, cs => [cs]
  | _ + 1, [] => [[]]
  | n + 1, c :: cs =>
    if sep.isPrefixOf (c :: cs) then [] :: splitSegF sep n ((c :: cs).drop sep.length)
    else
      match splitSegF sep n cs with
      | [] => [[c]]
      | w :: ws => (c :: w) :: ws

/-- `s.split(" or ")`, the allowed-VRs separator split. -/
def splitVrs (s : String) : List String :=
  (splitSegF " or ".data s.data.length s.data).map String.mk

/-- The inclusion test of the list comprehension in `read_tags_from_innolitics`:
the walrus `resolvable_tag_id := e["id"].replace("x", "0")` must be truthy
(non-empty) and `len(e["keyword"]) > 0`. -/
def includeAttr (e : RawAttr) : Bool :=
  !(replCharL 'x' '0' e.id.data).isEmpty && decide (0 < e.keyword.length)

/-- Coordinate normalization: replace the wildcard `x` by `0`, split the token
into its first 4 and remaining characters, parse both as hex. -/
def parseCoordsL (cs : List Char) : Option (Nat × Nat) :=
  match parseHexL ((replCharL 'x' '0' cs).take 4),
        parseHexL ((replCharL 'x' '0' cs).drop 4) with
  | some g, some el => some (g, el)
  | _, _ => none

/-- The VR field of a normalized tag: forced to the single `NA` sentinel when
the lowercased group half of the (wildcard-substituted) id is `fffe`. -/
def tagVrOf (rid : List Char) (vrField : String) : List String :=
  splitVrs (if (rid.take 4).map pyLowerChar ≠ "fffe".data then vrField else "NA")

/-- Construction of one `Tag` from a raw record; `none` models the uncaught
`ValueError` of `int(_, 16)` on a malformed id. -/
def mkTag (e : RawAttr) : Option Tag :=
  match parseCoordsL e.id.data with
  | none => none
  | some (g, el) =>
    some { group := g, elem := el,
           vr := tagVrOf (replCharL 'x' '0' e.id.data) e.vrField,
           name := e.name, vm := e.vm, keyword := e.keyword,
           retired := e.retired == "Y" }

/-- The list comprehension of `read_tags_from_innolitics` over already decoded
records: keep records passing `includeAttr`, normalize each; any coordinate
parse failure aborts the whole read. -/
def readTags : List RawAttr → Option (List Tag)
  | [] => some []
  | e :: es =>
    if includeAttr e then
      match mkTag e, readTags es with
      | some t, some ts => some (t :: ts)
      | _, _ => none
    else readTags es

/-- The `vr_map` dictionary of `vr_string_to_go_const`, as an association list. -/
def vrMapPairs : List (String × String) :=
  [("AE", "vr.ApplicationEntity"), ("AS", "vr.AgeString"), ("AT", "vr.AttributeTag"),
   ("CS", "vr.CodeString"), ("DA", "vr.Date"), ("DS", "vr.DecimalString"),
   ("DT", "vr.DateTime"), ("FD", "vr.FloatingPointDouble"), ("FL", "vr.FloatingPointSingle"),
   ("IS", "vr.IntegerString"), ("LO", "vr.LongString"), ("LT", "vr.LongText"),
   ("OB", "vr.OtherByte"), ("OD", "vr.OtherDouble"), ("OF", "vr.OtherFloat"),
   ("OL", "vr.OtherLong"), ("OV", "vr.OtherVeryLong"), ("OW", "vr.OtherWord"),
   ("PN", "vr.PersonName"), ("SH", "vr.ShortString"), ("SL", "vr.SignedLong"),
   ("SQ", "vr.SequenceOfItems"), ("SS", "vr.SignedShort"), ("ST", "vr.ShortText"),
   ("SV", "vr.SignedVeryLong"), ("TM", "vr.Time"), ("UC", "vr.UnlimitedCharacters"),
   ("UI", "vr.UniqueIdentifier"), ("UL", "vr.UnsignedLong"), ("UN", "vr.Unknown"),
   ("UR", "vr.UniversalResourceIdentifier"), ("US", "vr.UnsignedShort"),
   ("UT", "vr.UnlimitedText"), ("UV", "vr.UnsignedVeryLong"), ("NA", "vr.Unknown")]

/-- Dictionary lookup underlying `vr_map.get(vr, "vr.Unknown")`. -/
def vrMapLookup (s : String) : Option String :=
  vrMapPairs.lookup s

/-- `vr_string_to_go_const`: total, with silent default `"vr.Unknown"`. -/
def vrStringToGoConst (s : String) : String :=
  (vrMapLookup s).getD "vr.Unknown"

/-- `%04x` hexadecimal rendering for the 16-bit halves. -/
def hex4 (n : Nat) : String :=
  String.mk [Nat.digitChar (n / 4096 % 16), Nat.digitChar (n / 256 % 16),
             Nat.digitChar (n / 16 % 16), Nat.digitChar (n % 16)]

/-- One `var {keyword} = New(0x{group:04x}, 0x{elem:04x})` line. -/
def tagVarDecl (t : Tag) : String :=
  "var " ++ t.keyword ++ " = New(0x" ++ hex4 t.group ++ ", 0x" ++ hex4 t.elem ++ ")"

/-- The top-level declaration names rendered by `generate`: one `var` per tag,
named by the record keyword, with no deduplication. -/
def tagVarNames (tags : List Tag) : List String :=
  tags.map Tag.keyword

/-- One `TagDict` entry line (`tag_dict_entry`). -/
def tagDictEntry (t : Tag) : String :=
  "\t" ++ t.keyword ++ ": Info\x7bTag: " ++ t.keyword ++ ", VRs: []vr.VR\x7b"
    ++ String.intercalate ", " (t.vr.map vrStringToGoConst)
    ++ "\x7d, Name: \"" ++ t.name ++ "\", Keyword: \"" ++ t.keyword
    ++ "\", VM: \"" ++ t.vm ++ "\", Retired: "
    ++ (if t.retired then "true" else "false") ++ "\x7d,"

/-- Header of the generated file (license/credits text elided: the claims never
inspect it). -/
def tagFileHeader : String :=
  "// AUTO-GENERATED from generate_tag_values.py. DO NOT EDIT.\npackage tag\n\nimport \"github.com/harrison-ai/go-radx/dicom/vr\"\n"

/-- The full text written by `generate` on success. -/
def renderTagFile (tags : List Tag) : String :=
  tagFileHeader
    ++ String.intercalate "\n" (tags.map tagVarDecl)
    ++ "\n\nvar TagDict = map[Tag]Info\x7b\n"
    ++ String.intercalate "\n" (tags.map tagDictEntry)
    ++ "\n\x7d"

/-- Fatal error taxonomy of a generation run. -/
inductive RunError
  | retrieval
  | format
  | tableNotFound
deriving DecidableEq, Repr

/-- `main` of generate_tag_values.py acting on the artifact file, modelled as
`Option String` (`none` = absent).  `open("tag_values.go", "w")` truncates the
file to empty *before* `generate` runs, so the fetch (and the whole
comprehension, including coordinate parsing) happens with the artifact already
truncated; its prior contents are never restored on error. -/
def tagMain (fetched : Except RunError (List RawAttr)) (prior : Option String) :
    Option String :=
  -- the truncating `open` ignores the prior contents
  let truncated : Option String := some ""
  match fetched with
  | Except.error _ => truncated
  | Except.ok attrs =>
    match readTags attrs with
    | none => truncated
    | some tags => some (renderTagFile tags)

example : parseCoordsL "60xx0010".data = some (24576, 16) := by decide
example : parseCoordsL "60XX0010".data = none := by decide
example : readTags [⟨"00280030", "DS", "Pixel Spacing", "2", "PixelSpacing", "N"⟩]
    = some [⟨40, 48, ["DS"], "Pixel Spacing", "2", "PixelSpacing", false⟩] := by decide

/-! ### UID constants pipeline (`generate_uid_constants.py`) -/

/-- One tuple `(uid, name, type, retired)` extracted by `parse_uid_map`. -/
structure ParsedUid where
  uid : String
  name : String
  typ : String
  retired : Bool
deriving DecidableEq, Repr

/-- One `(uid, name, retired)` triple after the type filter. -/
structure UidRec where
  uid : String
  name : String
  retired : Bool
deriving DecidableEq, Repr

/-- Strict lexicographic (code-point) comparison of character lists: the Python
`<` comparison on strings, the order used by `list.sort(key=lambda x: x[0])`. -/
def lexLtL : List Char → List Char → Bool
  | [], [] => false
  | [], _ :: _ => true
  | _ :: _, [] => false
  | a :: as, b :: bs =>
    if a < b then true
    else if b < a then false
    else lexLtL as bs

/-- Insertion step of the sort by UID string. -/
def insertTS (r : UidRec) : List UidRec → List UidRec
  | [] => [r]
  | s :: ss => if lexLtL r.uid.data s.uid.data then r :: s :: ss else s :: insertTS r ss

/-- `transfer_syntaxes.sort(key=lambda x: x[0])`: sort by the UID string under
Python string (lexicographic) comparison. -/
def sortByUid (rs : List UidRec) : List UidRec :=
  rs.foldr insertTS []

/-- `uid.replace('.', '_').split('_')[-1]`: the collision-disambiguation
fragment appended on a duplicate constant name. -/
def lastKeySeg (uid : String) : String :=
  String.mk ((splitPredL (fun c => c == '_') (replCharL '.' '_' uid.data)).getLastD [])

/-- The emission loop shared by `generate_transfer_syntax_file` and
`generate_sop_class_file`: skip empty/whitespace names, synthesize the constant
name, suffix on a collision with the already-seen set, record the (possibly
suffixed) name as seen.  Returns the `(constant name, uid)` pairs in emission
order. -/
def genConstGo : List UidRec → List String → List (String × String)
  | [], _ => []
  | r :: rs, seen =>
    if r.name == "" || pyStripStr r.name == "" then genConstGo rs seen
    else
      let base := toGoConstantName r.name
      let final := if seen.contains base then base ++ "_" ++ lastKeySeg r.uid else base
      (final, r.uid) :: genConstGo rs (final :: seen)

/-- The Transfer Syntax filter of `generate_transfer_syntax_file`. -/
def transferSyntaxes (us : List ParsedUid) : List UidRec :=
  (us.filter (fun u => u.typ == "TypeTransferSyntax")).map
    (fun u => { uid := u.uid, name := u.name, retired := u.retired })

/-- The SOP Class filter of `generate_sop_class_file`. -/
def sopClasses (us : List ParsedUid) : List UidRec :=
  (us.filter (fun u => u.typ == "TypeSOPClass" || u.typ == "TypeMetaSOPClass")).map
    (fun u => { uid := u.uid, name := u.name, retired := u.retired })

/-- The `(constant name, uid)` pairs emitted into transfer_syntax_uids.go. -/
def genTransferSyntaxConsts (us : List ParsedUid) : List (String × String) :=
  genConstGo (sortByUid (transferSyntaxes us)) []

/-- The `(constant name, uid)` pairs emitted into sop_class_uids.go. -/
def genSOPClassConsts (us : List ParsedUid) : List (String × String) :=
  genConstGo (sortByUid (sopClasses us)) []

example :
    genTransferSyntaxConsts
      [⟨"1.2.3", "Foo", "TypeTransferSyntax", false⟩,
       ⟨"1.2.3.1", "Foo", "TypeTransferSyntax", false⟩]
    = [("Foo", "1.2.3"), ("Foo_1", "1.2.3.1")] := by decide

/-! ### UID definitions pipeline (`generate_uid_definitions.py`) -/

/-- One attribute dict of Table A-1 / A-2 after column labelling. -/
structure UidAttr where
  uid : String
  name : String
  keyword : String
  typ : String
  info : String
  retired : String
deriving DecidableEq, Repr

/-- The characters of the locale-fixed retirement marker `"(Retired)"`. -/
def markerL : List Char := "(Retired)".data

/-- Substring test: the Python membership test `pat in s`. -/
def containsSeg (pat : List Char) : List Char → Bool
  | [] => pat.isPrefixOf []
  | c :: cs => pat.isPrefixOf (c :: cs) || containsSeg pat cs

/-- Python `s.replace("(Retired)", "")`, fuelled (fuel = length of the subject
is always enough: every step consumes at least one character). -/
def stripMarkerF : Nat → List Char → List Char
  | 0, cs => cs
  | _ + 1, [] => []
  | n + 1, c :: cs =>
    if markerL.isPrefixOf (c :: cs) then stripMarkerF n ((c :: cs).drop markerL.length)
    else c :: stripMarkerF n cs

/-- `name.replace("(Retired)", "")`. -/
def stripMarker (cs : List Char) : List Char :=
  stripMarkerF cs.length cs

/-- `name.split(":", 1)[0]`. -/
def beforeColon (cs : List Char) : List Char :=
  cs.takeWhile (fun c => c ≠ ':')

/-- `name.split(":", 1)[1]` (defined when a colon is present). -/
def afterColon (cs : List Char) : List Char :=
  (cs.dropWhile (fun c => c ≠ ':')).tail

/-- The post-processing loop body of `parse_uid_values_table`.  NOTE (faithful
to the source): the local `name` is bound once, before the retirement-marker
handling, so the colon test and the colon split both read the ORIGINAL name,
not the marker-stripped one. -/
def postProcessA1 (a : UidAttr) : UidAttr :=
  let name := a.name
  let a1 :=
    if containsSeg markerL name.data then
      { a with retired := "Retired", name := String.mk (pyStripL (stripMarker name.data)) }
    else a
  if containsSeg [':'] name.data then
    { a1 with name := String.mk (pyStripL (beforeColon name.data)),
              info := String.mk (pyStripL (afterColon name.data)) }
  else a1

example : (postProcessA1 ⟨"1.2", "Foo (Retired)", "", "", "", ""⟩).name = "Foo" := by decide
example : (postProcessA1 ⟨"1.2", "Foo (Retired)", "", "", "", ""⟩).retired = "Retired" := by decide

/-- The acronym map of `sanitize_keyword`. -/
def sanAcronyms : List (String × String) :=
  [("sop", "SOP"), ("dicom", "DICOM"), ("ldap", "LDAP"),
   ("oid", "OID"), ("uid", "UID"), ("uids", "UIDs")]

/-- Word separators of `sanitize_keyword`: whitespace, hyphen, slash, dot
(the regex character class it splits on). -/
def sanSep (c : Char) : Bool :=
  pySpaceChar c || c == '-' || c == '/' || c == '.'

/-- `sanitize_keyword`: split a UID Type string on separators, capitalize each
word preserving the acronym map, concatenate. -/
def sanitizeKeyword (keyword : String) : String :=
  let words := (splitPredL sanSep keyword.data).filter (fun w => w ≠ [])
  String.mk ((words.map (fun w =>
    match sanAcronyms.lookup (String.mk (w.map pyLowerChar)) with
    | some up => up.data
    | none => pyCapitalizeL w)).flatten)

example : sanitizeKeyword "Well-known SOP Instance" = "WellKnownSOPInstance" := by decide

/-- Escaping of `"` in rendered string literals (`.replace('"', '\\"')`). -/
def escQ (s : String) : String :=
  String.mk (s.data.flatMap (fun c => if c == '"' then ['\\', '"'] else [c]))

/-- The per-run cleanup applied in `main` before rendering: ampersands in the
name become `and`, soft hyphens are removed from the UID value. -/
def cleanupAttr (a : UidAttr) : UidAttr :=
  { a with
    name := String.mk (a.name.data.flatMap (fun c => if c == '&' then "and".data else [c])),
    uid := a.uid.data.filter (fun c => c.toNat ≠ 173) |> String.mk }

/-- One line of the generated `uidMap` (`generate_uid_map`). -/
def uidMapLine (a : UidAttr) : String :=
  "\t\"" ++ a.uid ++ "\": \x7bUID: \"" ++ a.uid ++ "\", Name: \"" ++ escQ a.name
    ++ "\", Type: Type" ++ sanitizeKeyword a.typ ++ ", Info: \"" ++ escQ a.info
    ++ "\", Retired: " ++ (if a.retired == "Retired" then "true" else "false") ++ "\x7d,"

/-- The two parsed tables handed to the rendering stage. -/
structure UidTables where
  tableA1 : List UidAttr
  tableA2 : List UidAttr
deriving DecidableEq, Repr

/-- The text written by `write_output_file` (fixed header / license / enum /
struct / helper-function blocks elided as a fixed prefix and suffix: the claims
never inspect them). -/
def renderUidDefFile (tabs : UidTables) : String :=
  let alls := (tabs.tableA1 ++ tabs.tableA2).map cleanupAttr
  "// AUTO-GENERATED by generate_uid_definitions.py. DO NOT EDIT.\npackage uid\n\n"
    ++ "var uidMap = map[string]Info\x7b\n"
    ++ String.intercalate "\n" (alls.map uidMapLine)
    ++ "\n\x7d\n"

/-- `main` of generate_uid_definitions.py acting on the artifact file: the
fetch and both table parses complete (or fail) BEFORE the output file is
opened, so any fatal error leaves the artifact untouched. -/
def uidDefMain (parsed : Except RunError UidTables) (prior : Option String) :
    Option String :=
  match parsed with
  | Except.error _ => prior
  | Except.ok tabs => some (renderUidDefFile tabs)

/-! ### Spec-side definition: dotted-numeric key comparison -/

/-- Decimal value of a dot-free segment. -/
def decSegVal (cs : List Char) : Nat :=
  cs.foldl (fun a c => 10 * a + (c.toNat - 48)) 0

/-- Modelled from the spec: split a unique key on dots and read
each segment as an integer. -/
def dottedSegs (uid : String) : List Nat :=
  (splitPredL (fun c => c == '.') uid.data).map decSegVal

/-- Lexicographic comparison of numeric segment lists. -/
def numListLt : List Nat → List Nat → Bool
  | [], [] => false
  | [], _ :: _ => true
  | _ :: _, [] => false
  | a :: as, b :: bs =>
    if a < b then true else if b < a then false else numListLt as bs

/-- Modelled from the spec: the dotted-numeric comparison under
which segment `"9"` sorts before segment `"10"`. -/
def dottedNumericLt (a b : String) : Bool :=
  numListLt (dottedSegs a) (dottedSegs b)

example : dottedNumericLt "1.9" "1.10" = true := by decide
example : lexLtL "1.10".data "1.9".data = true := by decide

/-! ### Claim C1: state of the artifact file on a fatal error -/

/-- C1 counterexample: in the tag pipeline a retrieval failure does NOT leave a
previously existing artifact unchanged — `open(.., "w")` truncates it before
the fetch, so the prior contents `"old contents"` are replaced by the empty
file. -/
theorem C1_counterexample :
    tagMain (Except.error RunError.retrieval) (some "old contents") = some "" ∧
    (some "" : Option String) ≠ some "old contents" := by
  exact ⟨rfl, by decide⟩

/-- C1 (amended): in the uid-definitions pipeline every fatal error aborts
before the artifact is opened, leaving the prior contents unchanged; in the tag
pipeline the artifact is truncated before retrieval, so a fatal error (fetch
failure, or a coordinate parse failure) leaves an empty file — no generated
output is written, but prior contents are lost. -/
theorem C1_amended (err : RunError) (prior : Option String) :
    uidDefMain (Except.error err) prior = prior ∧
    tagMain (Except.error err) prior = some "" ∧
    (∀ attrs, readTags attrs = none → tagMain (Except.ok attrs) prior = some "") := by
  refine ⟨rfl, rfl, ?_⟩
  intro attrs h
  simp [tagMain, h]

/-- C1 witness: the amended statement at concrete inputs (a table-location
failure for the uid pipeline; an unparsable coordinate for the tag pipeline). -/
theorem C1_witness :
    uidDefMain (Except.error RunError.tableNotFound) (some "prev") = some "prev" ∧
    tagMain (Except.ok [⟨"ZZZZ0010", "OB", "Bad", "1", "Bad", "N"⟩]) (some "prev") = some "" :=
  ⟨(C1_amended RunError.tableNotFound (some "prev")).1,
   (C1_amended RunError.tableNotFound (some "prev")).2.2
     [⟨"ZZZZ0010", "OB", "Bad", "1", "Bad", "N"⟩] (by decide)⟩

/-! ### Claim C4: unrecognized category text -/

/-- C4 counterexample: `"QQ"` is not in the closed VR enumeration, yet
normalization does not fail — it silently maps to the default `vr.Unknown`. -/
theorem C4_counterexample :
    vrMapLookup "QQ" = none ∧ vrStringToGoConst "QQ" = "vr.Unknown" := by decide

/-- C4 (amended): raw representation text outside the closed enumeration is
silently mapped to the default `vr.Unknown`; the run never fails on it. -/
theorem C4_amended (s : String) (h : vrMapLookup s = none) :
    vrStringToGoConst s = "vr.Unknown" := by
  simp [vrStringToGoConst, h]

/-- C4 witness: the amended statement at the concrete unrecognized text `"ZZ"`. -/
theorem C4_witness : vrStringToGoConst "ZZ" = "vr.Unknown" :=
  C4_amended "ZZ" (by decide)

/-! ### Claim C7: retirement marker stripping -/

/-- C7: the code contradicts the claim on a name carrying the marker before a
colon.  The colon split re-reads the stale original name, so the final display
name of `"Foo (Retired): bar"` is `"Foo (Retired)"` — the marker text survives
(the retirement flag is still set). -/
theorem C7_code_eval :
    (postProcessA1 ⟨"1.2.3", "Foo (Retired): bar", "", "", "", ""⟩).retired = "Retired" ∧
    (postProcessA1 ⟨"1.2.3", "Foo (Retired): bar", "", "", "", ""⟩).name = "Foo (Retired)" ∧
    containsSeg markerL
      (postProcessA1 ⟨"1.2.3", "Foo (Retired): bar", "", "", "", ""⟩).name.data = true := by
  decide

/-! ### Claim C8: the keyword inclusion predicate -/

/-- C8 counterexample: a record whose keyword is the single space `" "` is
included (`len(keyword) > 0` holds), although its keyword trims to empty — the
filter does not trim. -/
theorem C8_counterexample :
    includeAttr ⟨"00100010", "PN", "SomeName", "1", " ", "N"⟩ = true ∧
    pyStripStr " " = "" := by decide

/-- C8 (amended): a raw record is included iff its id string is non-empty and
its keyword is non-empty — without any whitespace trimming, so a whitespace-only
keyword is kept. -/
theorem C8_amended (e : RawAttr) :
    includeAttr e = true ↔ (e.id ≠ "" ∧ e.keyword ≠ "") := by
  obtain ⟨⟨idl⟩, vrf, nm, vm, ⟨kwl⟩, rt⟩ := e
  unfold includeAttr replCharL
  rw [Bool.and_eq_true, Bool.not_eq_true', List.isEmpty_eq_false, decide_eq_true_iff]
  cases idl <;> cases kwl <;> simp [String.length, String.ext_iff]

/-! ### Claim C10: names without word characters -/

/-- C10 counterexample: the name `"_"` contains no alphanumeric character at
all, yet the synthesizer returns `"_"`, not the empty string (regex `\w`
includes the underscore). -/
theorem C10_counterexample :
    (∀ c ∈ "_".data, Char.isAlphanum c = false) ∧ toGoConstantName "_" ≠ "" := by decide

/-- Helper: a character list of whitespace only yields no words. -/
theorem pyWordsL_eq_nil (cs : List Char) (h : ∀ c ∈ cs, pySpaceChar c = true) :
    pyWordsL cs = [] := by
  induction cs with
  | nil => rfl
  | cons c cs ih =>
    have hc := h c (List.mem_cons_self c cs)
    unfold pyWordsL splitPredL
    rw [if_pos hc]
    simpa [pyWordsL] using ih (fun d hd => h d (List.mem_cons_of_mem c hd))

/-- C10 (amended): a display name containing no WORD character (no
alphanumeric and no underscore) synthesizes to the empty identifier, with no
error and no digit-prefix; if the name still survives the empty-name filter (as
a punctuation-only name does), its declaration is emitted with an empty
identifier. -/
theorem C10_amended (name : String) (h : ∀ c ∈ name.data, pyIsWordChar c = false) :
    toGoConstantName name = "" ∧
    ∀ uid r, pyStripStr name ≠ "" →
      genConstGo [{ uid := uid, name := name, retired := r }] [] = [("", uid)] := by
  have hall : ∀ c ∈ name.data.map
      (fun c => if pyIsWordChar c || pySpaceChar c then c else ' '), pySpaceChar c = true := by
    intro c hc
    rw [List.mem_map] at hc
    obtain ⟨c', hc', rfl⟩ := hc
    rw [h c' hc', Bool.false_or]
    by_cases hs : pySpaceChar c' = true
    · rw [if_pos hs]; exact hs
    · rw [if_neg hs]; decide
  have hname : toGoConstantName name = "" := by
    simp only [toGoConstantName, pyWordsL_eq_nil _ hall, List.map_nil, List.flatten_nil]
  refine ⟨hname, ?_⟩
  intro uid r hst
  have hne : name ≠ "" := by
    intro hEq
    rw [hEq] at hst
    exact hst rfl
  unfold genConstGo
  rw [if_neg, hname]
  · simp [genConstGo]
  · rw [Bool.or_eq_true, not_or]
    exact ⟨by simpa using hne, by simpa using hst⟩

/-- C10 witness: the amended statement at the punctuation-only name `"---"`. -/
theorem C10_witness :
    toGoConstantName "---" = "" ∧
    genConstGo [{ uid := "1.2", name := "---", retired := false }] [] = [("", "1.2")] :=
  ⟨(C10_amended "---" (by decide)).1,
   (C10_amended "---" (by decide)).2 "1.2" false (by decide)⟩

/-! ### Claim C5: collision suffixes -/

/-- C5 counterexample: two colliding entities with keys `1.2.3` and `1.2.3.1`
receive the names `Foo` (no suffix at all) and `Foo_1` (underscore plus the
last dotted segment), not `Foo_3` and `Foo_3_1` as the claim states. -/
theorem C5_counterexample :
    genTransferSyntaxConsts
        [⟨"1.2.3", "Foo", "TypeTransferSyntax", false⟩,
         ⟨"1.2.3.1", "Foo", "TypeTransferSyntax", false⟩]
      = [("Foo", "1.2.3"), ("Foo_1", "1.2.3.1")] ∧
    (["Foo", "Foo_1"] : List String) ≠ ["Foo_3", "Foo_3_1"] := by decide

/-- C5 (amended): when exactly two entities collide on the synthesized base
identifier, the first-sorted entity keeps the unsuffixed base name and the
second receives an underscore plus the final dot-delimited segment of its own
key (for keys `1.2.3` / `1.2.3.1` that is `Base` and `Base_1`); the two final
identifiers are distinct. -/
theorem C5_amended (u1 n1 u2 n2 : String) (r1 r2 : Bool)
    (hbase : toGoConstantName n2 = toGoConstantName n1)
    (hs1 : pyStripStr n1 ≠ "") (hs2 : pyStripStr n2 ≠ "")
    (hlt : lexLtL u1.data u2.data = true) :
    genTransferSyntaxConsts
        [⟨u1, n1, "TypeTransferSyntax", r1⟩, ⟨u2, n2, "TypeTransferSyntax", r2⟩]
      = [(toGoConstantName n1, u1), (toGoConstantName n1 ++ "_" ++ lastKeySeg u2, u2)]
    ∧ toGoConstantName n1 ≠ toGoConstantName n1 ++ "_" ++ lastKeySeg u2 := by
  have hn1 : n1 ≠ "" := fun hEq => hs1 (by rw [hEq]; rfl)
  have hn2 : n2 ≠ "" := fun hEq => hs2 (by rw [hEq]; rfl)
  have hb1 : (n1 == "") = false := beq_eq_false_iff_ne.mpr hn1
  have hb2 : (pyStripStr n1 == "") = false := beq_eq_false_iff_ne.mpr hs1
  have hb3 : (n2 == "") = false := beq_eq_false_iff_ne.mpr hn2
  have hb4 : (pyStripStr n2 == "") = false := beq_eq_false_iff_ne.mpr hs2
  constructor
  · simp only [genTransferSyntaxConsts, transferSyntaxes, List.filter_cons, List.filter_nil,
      beq_self_eq_true, if_pos, List.map_cons, List.map_nil, sortByUid, List.foldr_cons,
      List.foldr_nil, insertTS, hlt, if_true]
    simp [genConstGo, hb1, hb2, hb3, hb4, hbase]
  · intro hEq
    have hlen := congrArg String.length hEq
    rw [String.length_append, String.length_append] at hlen
    have h1 : String.length "_" = 1 := rfl
    omega

/-! ### Claim C2: uniqueness of rendered declaration names -/

/-- A duplicate-keyword raw record (patient name). -/
def dupA : RawAttr := ⟨"00100010", "PN", "Patient Name", "1", "PatientName", "N"⟩

/-- A second raw record carrying the same keyword as `dupA`. -/
def dupB : RawAttr := ⟨"00100020", "LO", "Patient ID", "1", "PatientName", "N"⟩

/-- C2 counterexample: in the tag pipeline two surviving records with the same
keyword produce the same top-level `var` declaration name twice — nothing
deduplicates. -/
theorem C2_counterexample :
    tagVarNames ((readTags [dupA, dupB]).getD []) = ["PatientName", "PatientName"] ∧
    ¬ (tagVarNames ((readTags [dupA, dupB]).getD [])).Nodup := by decide

/-- Helper: normalization preserves the raw keyword. -/
theorem mkTag_keyword (e : RawAttr) (t : Tag) (h : mkTag e = some t) :
    t.keyword = e.keyword := by
  unfold mkTag at h
  cases hp : parseCoordsL e.id.data with
  | none => rw [hp] at h; exact absurd h (by simp)
  | some p =>
    obtain ⟨g, el⟩ := p
    rw [hp] at h
    cases h
    rfl

/-- C2 (amended): in the tag pipeline the rendered top-level declaration names
are exactly the keywords of the surviving raw records, verbatim — uniqueness is
NOT enforced by any identifier synthesis, it holds only when the input
keywords are already distinct (the uid pipeline suffixing, in turn, handles
only the first collision per name). -/
theorem C2_amended (attrs : List RawAttr) (tags : List Tag)
    (h : readTags attrs = some tags) :
    tagVarNames tags = (attrs.filter includeAttr).map RawAttr.keyword := by
  induction attrs generalizing tags with
  | nil =>
    simp only [readTags, Option.some.injEq] at h
    subst h
    rfl
  | cons e es ih =>
    rw [readTags] at h
    by_cases hinc : includeAttr e
    · rw [if_pos hinc] at h
      cases hm : mkTag e with
      | none => rw [hm] at h; exact absurd h (by simp)
      | some t =>
        cases hr : readTags es with
        | none => rw [hm, hr] at h; exact absurd h (by simp)
        | some ts =>
          rw [hm, hr] at h
          simp only [Option.some.injEq] at h
          subst h
          simp only [tagVarNames, List.map_cons, List.filter_cons, hinc, if_true,
            mkTag_keyword e t hm]
          exact congrArg (e.keyword :: ·) (ih ts hr)
    · rw [if_neg hinc] at h
      rw [List.filter_cons_of_neg (by simpa using hinc)]
      exact ih tags h

/-- C2 witness: the amended statement at a one-record input. -/
theorem C2_witness :
    ∃ ts, readTags [dupA] = some ts ∧ tagVarNames ts = ["PatientName"] :=
  ⟨[⟨16, 16, ["PN"], "Patient Name", "1", "PatientName", false⟩], by decide,
   (C2_amended [dupA] [⟨16, 16, ["PN"], "Patient Name", "1", "PatientName", false⟩]
      (by decide)).trans (by decide)⟩

/-- C5 witness: the amended statement at the concrete keys `1.2.840` and
`1.2.840.1` with the colliding base name `Study`. -/
theorem C5_witness :
    genTransferSyntaxConsts
        [⟨"1.2.840", "Study", "TypeTransferSyntax", false⟩,
         ⟨"1.2.840.1", "Study", "TypeTransferSyntax", false⟩]
      = [(toGoConstantName "Study", "1.2.840"),
         (toGoConstantName "Study" ++ "_" ++ lastKeySeg "1.2.840.1", "1.2.840.1")]
    ∧ toGoConstantName "Study" ≠ toGoConstantName "Study" ++ "_" ++ lastKeySeg "1.2.840.1" :=
  C5_amended "1.2.840" "Study" "1.2.840.1" "Study" false false rfl
    (by decide) (by decide) (by decide)

/-! ### Claim C6: wildcard placeholder casing -/

/-- C6 counterexample: the lowercase token `60xx0010` normalizes to the pair
`(0x6000, 0x0010)` but its uppercase variant `60XX0010` fails to parse — only
the lowercase placeholder is substituted, so the results differ. -/
theorem C6_counterexample :
    parseCoordsL "60xx0010".data = some (24576, 16) ∧
    parseCoordsL "60XX0010".data = none ∧
    parseCoordsL "60xx0010".data ≠ parseCoordsL "60XX0010".data := by decide

/-- Helper: a hex-digit-only character list parses under the accumulator. -/
theorem parseHexAux_isSome (cs : List Char) (h : ∀ c ∈ cs, (hexVal c).isSome) :
    ∀ acc, (parseHexAux acc cs).isSome := by
  induction cs with
  | nil => intro acc; rfl
  | cons c cs ih =>
    intro acc
    have hc := h c (List.mem_cons_self c cs)
    cases hv : hexVal c with
    | none => rw [hv] at hc; exact absurd hc (by simp)
    | some v =>
      rw [parseHexAux, hv]
      exact ih (fun d hd => h d (List.mem_cons_of_mem c hd)) _

/-- Helper: a non-empty hex-digit-only character list parses. -/
theorem parseHexL_isSome (cs : List Char) (hne : cs ≠ [])
    (h : ∀ c ∈ cs, (hexVal c).isSome) : (parseHexL cs).isSome := by
  cases cs with
  | nil => exact absurd rfl hne
  | cons c cs => exact parseHexAux_isSome _ h 0

/-- C6 (amended): for every 8-character coordinate token whose characters are
hex digits or the LOWERCASE placeholder `x`, substituting zero and splitting
into two 4-hex-digit halves yields a well-defined pair of integers; the
uppercase placeholder is not substituted, and such tokens fail to parse. -/
theorem C6_amended (cs : List Char) (h8 : cs.length = 8)
    (hh : ∀ c ∈ cs, (hexVal c).isSome ∨ c = 'x') :
    ∃ gp el, parseCoordsL cs = some (gp, el) := by
  have hall : ∀ c ∈ replCharL 'x' '0' cs, (hexVal c).isSome := by
    intro c hc
    rw [replCharL, List.mem_map] at hc
    obtain ⟨c', hc', rfl⟩ := hc
    by_cases hx : c' = 'x'
    · subst hx
      simp only [beq_self_eq_true, if_true]
      decide
    · rw [if_neg (by simpa using hx)]
      rcases hh c' hc' with hv | hv
      · exact hv
      · exact absurd hv hx
  have hlen : (replCharL 'x' '0' cs).length = 8 := by simpa [replCharL] using h8
  have h1 : (parseHexL ((replCharL 'x' '0' cs).take 4)).isSome := by
    apply parseHexL_isSome
    · apply List.ne_nil_of_length_pos
      rw [List.length_take, hlen]
      decide
    · intro c hc
      exact hall c (List.mem_of_mem_take hc)
  have h2 : (parseHexL ((replCharL 'x' '0' cs).drop 4)).isSome := by
    apply parseHexL_isSome
    · apply List.ne_nil_of_length_pos
      rw [List.length_drop, hlen]
      decide
    · intro c hc
      exact hall c (List.mem_of_mem_drop hc)
  rw [Option.isSome_iff_exists] at h1 h2
  obtain ⟨g, hg⟩ := h1
  obtain ⟨el, hel⟩ := h2
  refine ⟨g, el, ?_⟩
  simp only [parseCoordsL]
  rw [hg, hel]

/-- C6 witness: the amended statement at the concrete lowercase token
`0020xx31`. -/
theorem C6_witness : ∃ gp el, parseCoordsL "0020xx31".data = some (gp, el) :=
  C6_amended "0020xx31".data (by decide) (by decide)

/-! ### Claim C9: the reserved item-range sentinel -/

/-- Helper: hex digits are below 16. -/
theorem hexVal_lt (c : Char) (v : Nat) (h : hexVal c = some v) : v < 16 := by
  unfold hexVal at h
  split_ifs at h with h1 h2 h3
  · simp only [Option.some.injEq] at h; omega
  · simp only [Option.some.injEq] at h; omega
  · simp only [Option.some.injEq] at h; omega

/-- Helper: the only characters of hex value 15 are `f` and `F`; both lowercase
to `f`. -/
theorem hexVal_fifteen (c : Char) (h : hexVal c = some 15) : pyLowerChar c = 'f' := by
  unfold hexVal at h
  split_ifs at h with h1 h2 h3
  · exfalso; simp only [Option.some.injEq] at h; omega
  · simp only [Option.some.injEq] at h
    have hc : c.toNat = 102 := by omega
    unfold pyLowerChar
    rw [hc]
    decide
  · simp only [Option.some.injEq] at h
    have hc : c.toNat = 70 := by omega
    unfold pyLowerChar
    rw [hc]
    decide

/-- Helper: the only characters of hex value 14 are `e` and `E`; both lowercase
to `e`. -/
theorem hexVal_fourteen (c : Char) (h : hexVal c = some 14) : pyLowerChar c = 'e' := by
  unfold hexVal at h
  split_ifs at h with h1 h2 h3
  · exfalso; simp only [Option.some.injEq] at h; omega
  · simp only [Option.some.injEq] at h
    have hc : c.toNat = 101 := by omega
    unfold pyLowerChar
    rw [hc]
    decide
  · simp only [Option.some.injEq] at h
    have hc : c.toNat = 69 := by omega
    unfold pyLowerChar
    rw [hc]
    decide

/-- Helper: one-step unfolding of the accumulating hex parser. -/
theorem parseHexAux_cons (acc : Nat) (c : Char) (cs : List Char) :
    parseHexAux acc (c :: cs)
      = match hexVal c with
        | none => none
        | some v => parseHexAux (16 * acc + v) cs := rfl

/-- Helper: magnitude bound of the accumulating hex parser. -/
theorem parseHexAux_lt (cs : List Char) :
    ∀ acc v, parseHexAux acc cs = some v → v < (acc + 1) * 16 ^ cs.length := by
  induction cs with
  | nil =>
    intro acc v h
    cases h
    simp
  | cons c cs ih =>
    intro acc v h
    rw [parseHexAux_cons] at h
    cases hv : hexVal c with
    | none => rw [hv] at h; exact absurd h (by simp)
    | some d =>
      rw [hv] at h
      simp only [] at h
      have hd : d < 16 := hexVal_lt c d hv
      have h16 : 16 * acc + d + 1 ≤ (acc + 1) * 16 := by omega
      calc v < (16 * acc + d + 1) * 16 ^ cs.length := ih _ v h
        _ ≤ ((acc + 1) * 16) * 16 ^ cs.length := Nat.mul_le_mul_right _ h16
        _ = (acc + 1) * 16 ^ (cs.length + 1) := by rw [pow_succ]; ring

/-- Helper: a token of at most four hex digits parses to `0xFFFE` only if its
lowercased characters are exactly `fffe`. -/
theorem parseHexL_fffe :
    ∀ l : List Char, l.length ≤ 4 → parseHexL l = some 65534 →
      l.map pyLowerChar = "fffe".data
  | [], _, h => absurd h (by simp [parseHexL])
  | [a], _, h => by
    have := parseHexAux_lt [a] 0 65534 h
    norm_num at this
  | [a, b], _, h => by
    have := parseHexAux_lt [a, b] 0 65534 h
    norm_num at this
  | [a, b, c], _, h => by
    have := parseHexAux_lt [a, b, c] 0 65534 h
    norm_num at this
  | [a, b, c, d], _, h => by
    rw [show parseHexL [a, b, c, d] = parseHexAux 0 [a, b, c, d] from rfl] at h
    cases ha : hexVal a with
    | none => simp [parseHexAux_cons, ha] at h
    | some va =>
      cases hb : hexVal b with
      | none => simp [parseHexAux_cons, ha, hb] at h
      | some vb =>
        cases hc : hexVal c with
        | none => simp [parseHexAux_cons, ha, hb, hc] at h
        | some vc =>
          cases hd : hexVal d with
          | none => simp [parseHexAux_cons, ha, hb, hc, hd] at h
          | some vd =>
            simp only [parseHexAux_cons, ha, hb, hc, hd, parseHexAux,
              Option.some.injEq] at h
            have ba := hexVal_lt a va ha
            have bb := hexVal_lt b vb hb
            have bc := hexVal_lt c vc hc
            have bd := hexVal_lt d vd hd
            have ha15 : hexVal a = some 15 := ha.trans (congrArg some (by omega))
            have hb15 : hexVal b = some 15 := hb.trans (congrArg some (by omega))
            have hc15 : hexVal c = some 15 := hc.trans (congrArg some (by omega))
            have hd14 : hexVal d = some 14 := hd.trans (congrArg some (by omega))
            show [pyLowerChar a, pyLowerChar b, pyLowerChar c, pyLowerChar d]
              = ['f', 'f', 'f', 'e']
            rw [hexVal_fifteen a ha15, hexVal_fifteen b hb15, hexVal_fifteen c hc15,
              hexVal_fourteen d hd14]
  | a :: b :: c :: d :: e :: rest, hlen, _ => by
    simp only [List.length_cons] at hlen
    omega

/-- Helper: inversion of the coordinate parser on its group half. -/
theorem parseCoordsL_fst (cs : List Char) (g el : Nat)
    (h : parseCoordsL cs = some (g, el)) :
    parseHexL ((replCharL 'x' '0' cs).take 4) = some g := by
  unfold parseCoordsL at h
  cases h1 : parseHexL ((replCharL 'x' '0' cs).take 4) with
  | none => rw [h1] at h; exact absurd h (by simp)
  | some g' =>
    cases h2 : parseHexL ((replCharL 'x' '0' cs).drop 4) with
    | none => rw [h1, h2] at h; exact absurd h (by simp)
    | some e' =>
      rw [h1, h2] at h
      simp only [Option.some.injEq, Prod.mk.injEq] at h
      rw [h.1]

/-- Helper: when the lowercased group half is the sentinel, the VR list is
forced to `["NA"]`. -/
theorem tagVrOf_sentinel (rid : List Char) (vrField : String)
    (h : (rid.take 4).map pyLowerChar = "fffe".data) :
    tagVrOf rid vrField = ["NA"] := by
  unfold tagVrOf
  rw [if_neg (not_not_intro h)]
  decide

/-- C9 (confirmed): every raw record whose parsed group half equals the
reserved sentinel 0xFFFE (in either character casing of its hex digits)
normalizes to the one-element representation list `["NA"]`, whatever the raw
representation field contains. -/
theorem C9_sentinel (e : RawAttr) (t : Tag) (hm : mkTag e = some t)
    (hg : t.group = 65534) : t.vr = ["NA"] := by
  unfold mkTag at hm
  cases hp : parseCoordsL e.id.data with
  | none => rw [hp] at hm; exact absurd hm (by simp)
  | some p =>
    obtain ⟨g, el⟩ := p
    rw [hp] at hm
    simp only [Option.some.injEq] at hm
    subst hm
    have hg' : g = 65534 := hg
    have hfst := parseCoordsL_fst e.id.data g el hp
    rw [hg'] at hfst
    show tagVrOf (replCharL 'x' '0' e.id.data) e.vrField = ["NA"]
    exact tagVrOf_sentinel _ _
      (parseHexL_fffe _ (by rw [List.length_take]; exact Nat.min_le_left _ _) hfst)

/-- C9 witness: the sentinel record `FFFE0010` (with an unrelated raw VR field
`OB`) normalizes to the VR list `["NA"]`. -/
theorem C9_witness :
    ∃ t, mkTag ⟨"FFFE0010", "OB", "Item Start", "1", "ItemStart", "N"⟩ = some t ∧
      t.vr = ["NA"] :=
  ⟨⟨65534, 16, ["NA"], "Item Start", "1", "ItemStart", false⟩, by decide,
   C9_sentinel ⟨"FFFE0010", "OB", "Item Start", "1", "ItemStart", "N"⟩
     ⟨65534, 16, ["NA"], "Item Start", "1", "ItemStart", false⟩ (by decide) (by decide)⟩

/-! ### Claim C3: emission order of UID constant groups -/

/-- C3 counterexample: with keys `1.9` and `1.10` the generator emits `1.10`
first (plain string sort), violating the claimed ascending dotted-numeric
order. -/
theorem C3_counterexample :
    (genTransferSyntaxConsts
        [⟨"1.10", "Beta", "TypeTransferSyntax", false⟩,
         ⟨"1.9", "Alpha", "TypeTransferSyntax", false⟩]).map (fun p => p.2)
      = ["1.10", "1.9"] ∧
    dottedNumericLt "1.9" "1.10" = true ∧
    ¬ (["1.10", "1.9"] : List String).Pairwise
        (fun a b => dottedNumericLt b a = false) := by decide

/-- Helper: strict lexicographic comparison is asymmetric. -/
theorem lexLtL_asymm : ∀ a b : List Char, lexLtL a b = true → lexLtL b a = false := by
  intro a
  induction a with
  | nil =>
    intro b h
    cases b with
    | nil => exact absurd h (by decide)
    | cons c cs => rfl
  | cons x xs ih =>
    intro b h
    cases b with
    | nil => exact absurd h (by simp [lexLtL])
    | cons y ys =>
      simp only [lexLtL] at h ⊢
      by_cases h1 : x < y
      · rw [if_neg (lt_asymm h1), if_pos h1]
      · rw [if_neg h1] at h
        by_cases h2 : y < x
        · rw [if_pos h2] at h
          exact absurd h (by decide)
        · rw [if_neg h2] at h
          rw [if_neg h2, if_neg h1]
          exact ih ys h

/-- Helper: strict lexicographic comparison is transitive. -/
theorem lexLtL_trans :
    ∀ a b c : List Char, lexLtL a b = true → lexLtL b c = true → lexLtL a c = true := by
  intro a
  induction a with
  | nil =>
    intro b c hab hbc
    cases c with
    | nil =>
      cases b with
      | nil => exact absurd hab (by decide)
      | cons y ys => exact absurd hbc (by simp [lexLtL])
    | cons z zs => rfl
  | cons x xs ih =>
    intro b c hab hbc
    cases b with
    | nil => exact absurd hab (by simp [lexLtL])
    | cons y ys =>
      cases c with
      | nil => exact absurd hbc (by simp [lexLtL])
      | cons z zs =>
        simp only [lexLtL] at hab hbc ⊢
        rcases lt_trichotomy x y with hxy | hxy | hxy
        · rcases lt_trichotomy y z with hyz | hyz | hyz
          · rw [if_pos (lt_trans hxy hyz)]
          · subst hyz
            rw [if_pos hxy]
          · rw [if_neg (lt_asymm hyz), if_pos hyz] at hbc
            exact absurd hbc (by decide)
        · subst hxy
          rcases lt_trichotomy x z with hxz | hxz | hxz
          · rw [if_pos hxz]
          · subst hxz
            rw [if_neg (lt_irrefl x), if_neg (lt_irrefl x)] at hab hbc ⊢
            exact ih _ _ hab hbc
          · rw [if_neg (lt_asymm hxz), if_pos hxz] at hbc
            exact absurd hbc (by decide)
        · rw [if_neg (lt_asymm hxy), if_pos hxy] at hab
          exact absurd hab (by decide)

/-- The order the sort establishes: the later record is never strictly below
the earlier one. -/
def uidLeP (a b : UidRec) : Prop :=
  lexLtL b.uid.data a.uid.data = false

/-- Helper: membership after insertion. -/
theorem mem_insertTS (r x : UidRec) :
    ∀ l, x ∈ insertTS r l → x = r ∨ x ∈ l := by
  intro l
  induction l with
  | nil =>
    intro h
    simp only [insertTS, List.mem_singleton] at h
    exact Or.inl h
  | cons s ss ih =>
    intro h
    rw [insertTS] at h
    by_cases hc : lexLtL r.uid.data s.uid.data = true
    · rw [if_pos hc] at h
      rcases List.mem_cons.mp h with h1 | h1
      · exact Or.inl h1
      · exact Or.inr h1
    · rw [if_neg hc] at h
      rcases List.mem_cons.mp h with h1 | h1
      · exact Or.inr (h1 ▸ List.mem_cons_self s ss)
      · rcases ih h1 with h2 | h2
        · exact Or.inl h2
        · exact Or.inr (List.mem_cons_of_mem s h2)

/-- Helper: insertion preserves pairwise sortedness. -/
theorem pairwise_insertTS (r : UidRec) :
    ∀ l, l.Pairwise uidLeP → (insertTS r l).Pairwise uidLeP := by
  intro l
  induction l with
  | nil =>
    intro _
    simp [insertTS]
  | cons s ss ih =>
    intro hp
    rw [List.pairwise_cons] at hp
    obtain ⟨hs, hss⟩ := hp
    rw [insertTS]
    by_cases hc : lexLtL r.uid.data s.uid.data = true
    · rw [if_pos hc]
      refine List.Pairwise.cons ?_ (List.Pairwise.cons hs hss)
      intro x hx
      rcases List.mem_cons.mp hx with rfl | hx'
      · exact lexLtL_asymm _ _ hc
      · show lexLtL x.uid.data r.uid.data = false
        have h1 : lexLtL x.uid.data s.uid.data = false := hs x hx'
        cases hxe : lexLtL x.uid.data r.uid.data with
        | false => rfl
        | true =>
          exact absurd (lexLtL_trans _ _ _ hxe hc) (by rw [h1]; decide)
    · rw [if_neg hc]
      refine List.Pairwise.cons ?_ (ih hss)
      intro x hx
      rcases mem_insertTS r x ss hx with rfl | hx'
      · exact Bool.eq_false_iff.mpr (fun hEq => hc hEq)
      · exact hs x hx'

/-- Helper: the sort produces a pairwise-ordered list. -/
theorem sortByUid_pairwise (l : List UidRec) : (sortByUid l).Pairwise uidLeP := by
  induction l with
  | nil => exact List.Pairwise.nil
  | cons r rs ih => exact pairwise_insertTS r _ ih

/-- Helper: the uids emitted by the generation loop are a sublist of the input
uids, in order (skipping only drops entries). -/
theorem genConstGo_uids_sublist :
    ∀ (l : List UidRec) (seen : List String),
      ((genConstGo l seen).map (fun p => p.2)).Sublist (l.map UidRec.uid) := by
  intro l
  induction l with
  | nil =>
    intro seen
    simp [genConstGo]
  | cons r rs ih =>
    intro seen
    by_cases hc : (r.name == "" || pyStripStr r.name == "") = true
    · simp only [genConstGo, hc, if_true, List.map_cons]
      exact List.Sublist.cons _ (ih seen)
    · rw [Bool.not_eq_true] at hc
      simp only [genConstGo, hc, Bool.false_eq_true, if_false, List.map_cons]
      exact List.Sublist.cons₂ _ (ih _)

/-- C3 (amended): within each rendered group the constants are emitted in
ascending order of UID under PLAIN LEXICOGRAPHIC string comparison (Python
`str` ordering), not dotted-numeric comparison — so a key whose differing
segment is `"10"` sorts before one whose segment is `"9"`. -/
theorem C3_amended (us : List ParsedUid) :
    ((genTransferSyntaxConsts us).map (fun p => p.2)).Pairwise
        (fun a b : String => lexLtL b.data a.data = false) ∧
    ((genSOPClassConsts us).map (fun p => p.2)).Pairwise
        (fun a b : String => lexLtL b.data a.data = false) := by
  constructor
  · have hmap : ((sortByUid (transferSyntaxes us)).map UidRec.uid).Pairwise
        (fun a b : String => lexLtL b.data a.data = false) := by
      rw [List.pairwise_map]
      exact sortByUid_pairwise (transferSyntaxes us)
    exact List.Pairwise.sublist (genConstGo_uids_sublist _ []) hmap
  · have hmap : ((sortByUid (sopClasses us)).map UidRec.uid).Pairwise
        (fun a b : String => lexLtL b.data a.data = false) := by
      rw [List.pairwise_map]
      exact sortByUid_pairwise (sopClasses us)
    exact List.Pairwise.sublist (genConstGo_uids_sublist _ []) hmap

end GoRadx
